import Mathlib

/-!
Shallow embedding of the autoswarm-agent reconciliation engine
(`utils.py`, `docker_manager.py`, `reconciler.py`, `dokploy_client.py`)
together with theorems settling the specification claims.

Python dictionaries are embedded as association lists with first-match
lookup; `None`-able values as `Option`; code that can raise returns
`Option`.
-/

namespace Autoswarm

/-- Python `dict.get` over an association list: first matching key. -/
def pyDictGet : List (String × String) → String → Option String
  | [], _ => none
  | (k0, v0) :: rest, k => if k0 = k then some v0 else pyDictGet rest k

/-- Python `dict.update`: keys already in the base keep their position with
overridden values; keys only present in the update are appended in order. -/
def dictUpdate (base upd : List (String × String)) : List (String × String) :=
  base.map (fun p => (p.1, (pyDictGet upd p.1).getD p.2))
    ++ upd.filter (fun p => (pyDictGet base p.1).isNone)

/-- Does the second list start with the first one? -/
def startsWithL : List Char → List Char → Bool
  | [], _ => true
  | _ :: _, [] => false
  | p :: ps, c :: cs => p == c && startsWithL ps cs

/-- Python `sub in s` on character lists: substring containment. -/
def containsSub (pat : List Char) : List Char → Bool
  | [] => pat.isEmpty
  | l@(_ :: t) => startsWithL pat l || containsSub pat t

/-- Digit-string parsing: nonempty all-digit strings only. -/
def digitsToNat? (l : List Char) : Option Nat :=
  if l.isEmpty then none
  else if l.all Char.isDigit then
    some (l.foldl (fun a c => a * 10 + (c.toNat - 48)) 0)
  else none

/-- Python `split("/")` on character lists: split at every slash. -/
def splitSlashL : List Char → List (List Char)
  | [] => [[]]
  | c :: t =>
    if c = '/' then [] :: splitSlashL t
    else
      match splitSlashL t with
      | h :: r => (c :: h) :: r
      | [] => [[c]]

/-- Python `s.split("/")` on strings. -/
def pySplitSlash (s : String) : List String :=
  (splitSlashL s.data).map String.mk

/-- Python `int(s)` on strings: optional surrounding whitespace, optional
sign, then decimal digits; `none` models the `ValueError`. -/
def pyInt? (s : String) : Option Int :=
  let t := ((s.data.dropWhile Char.isWhitespace).reverse.dropWhile
    Char.isWhitespace).reverse
  match t with
  | '+' :: rest => (digitsToNat? rest).map Int.ofNat
  | '-' :: rest => (digitsToNat? rest).map (fun n => -(Int.ofNat n))
  | rest => (digitsToNat? rest).map Int.ofNat

/-! ## utils.py -/

/-- One character of the sanitisation loop in `derive_service_name`:
alphanumerics are lowercased, `-` and `_` kept, anything else becomes `-`.
The source uses Python's Unicode `str.isalnum()` and `str.lower()`;
`Char.isAlphanum` and `Char.toLower` are their ASCII restrictions, so this
embedding is exact precisely on ASCII characters (code point below 128),
and theorems about the derived name carry that domain as a hypothesis. -/
def sanitizeChar (c : Char) : Char :=
  if c.isAlphanum then c.toLower
  else if c = '-' ∨ c = '_' then c
  else '-'

/-- Python `str.strip("-")` on character lists. -/
def stripDash (l : List Char) : List Char :=
  ((l.dropWhile (· = '-')).reverse.dropWhile (· = '-')).reverse

/-- `HostConfig.RestartPolicy` of an inspected container. -/
structure RestartPolicyAttrs where
  name : Option String
  maximumRetryCount : Option Int
deriving Repr, DecidableEq

/-- One entry of a `HostConfig.PortBindings` value list. -/
structure PortBinding where
  hostIp : Option String
  hostPort : Option String
deriving Repr, DecidableEq

/-- One entry of the container `Mounts` array. -/
structure MountAttrs where
  destination : Option String
  source : Option String
  type : Option String
  rw : Option Bool
  propagation : Option String
deriving Repr, DecidableEq

/-- The `Config` section of an inspected container. -/
structure ContainerConfig where
  image : Option String
  env : Option (List String)
  user : Option String
  workingDir : Option String
  entrypoint : Option (List String)
  cmd : Option (List String)
  tty : Option Bool
deriving Repr, DecidableEq

/-- The attributes of an inspected container used by the translator. -/
structure ContainerAttrs where
  name : String
  id : String
  config : ContainerConfig
  restartPolicy : RestartPolicyAttrs
  portBindings : List (String × Option (List PortBinding))
  networks : List String
  mounts : List MountAttrs
deriving Repr, DecidableEq

/-- The raw name `derive_service_name` starts from: the container name with
leading `/` stripped, else the first 12 characters of the id. -/
def deriveRaw (c : ContainerAttrs) : List Char :=
  if (c.name.data.dropWhile (· = '/')).isEmpty then c.id.data.take 12
  else c.name.data.dropWhile (· = '/')

/-- `derive_service_name` from `utils.py`: strip leading `/` from the name
(falling back to the first 12 characters of the id), sanitise every
character, trim edge `-`, and fall back to `autoswarm-<id[:8]>`. -/
def derive_service_name (c : ContainerAttrs) : String :=
  if (stripDash ((deriveRaw c).map sanitizeChar)).isEmpty then
    String.mk ("autoswarm-".data ++ c.id.data.take 8)
  else String.mk (stripDash ((deriveRaw c).map sanitizeChar))

/-! ## docker_manager.py -/

/-- Service-spec mount entry produced by `collect_mounts`; `bindPropagation`
models the `BindOptions.Propagation` key (present only for bind mounts). -/
structure SpecMount where
  target : String
  source : String
  type : Option String
  readOnly : Bool
  bindPropagation : Option String
deriving Repr, DecidableEq

/-- One published-port entry of the endpoint spec. -/
structure PortSpec where
  protocol : String
  targetPort : Int
  publishedPort : Int
  publishMode : String
deriving Repr, DecidableEq

/-- A docker network as seen by `client.networks.list()`. -/
structure NetworkInfo where
  name : String
  id : String
  driver : Option String
deriving Repr, DecidableEq

/-- The ambient state a `DockerManager` instance closes over. -/
structure ManagerEnv where
  localNodeId : String
  traefikNetworkName : String
  existingNetworks : List NetworkInfo
deriving Repr, DecidableEq

/-- Truthiness of an optional string (Python `if x:`). -/
def pyTruthyS : Option String → Bool
  | some s => !(s = "")
  | none => false

/-- `collect_mounts`: keep mounts with non-empty destination and source;
bind mounts carry a propagation (default `rprivate`). -/
def collect_mounts (c : ContainerAttrs) : List SpecMount :=
  c.mounts.filterMap (fun m =>
    if pyTruthyS m.destination && pyTruthyS m.source then
      some { target := m.destination.getD ""
             source := m.source.getD ""
             type := m.type
             readOnly := !(m.rw.getD true)
             bindPropagation :=
               if m.type = some "bind" then some (m.propagation.getD "rprivate")
               else none }
    else none)

/-- Insertion into the `overlay_names` set, keeping insertion order. -/
def insertName (l : List String) (x : String) : List String :=
  if l.contains x then l else l ++ [x]

/-- Last-wins name lookup, mirroring the dict comprehension
`{net.name: net for net in self.client.networks.list()}`. -/
def findNetworkByName (l : List NetworkInfo) (n : String) : Option NetworkInfo :=
  l.foldl (fun acc net => if net.name = n then some net else acc) none

/-- `collect_networks`: carry forward non-default attachments plus the
Traefik network, keeping only networks that exist with an overlay driver. -/
def collect_networks (env : ManagerEnv) (c : ContainerAttrs) : List String :=
  let overlayNames :=
    c.networks.foldl (fun acc n =>
      if n = "bridge" ∨ n = "host" ∨ n = "none" then acc else insertName acc n) []
  let overlayNames :=
    if env.traefikNetworkName ≠ "" then insertName overlayNames env.traefikNetworkName
    else overlayNames
  overlayNames.filterMap (fun n =>
    match findNetworkByName env.existingNetworks n with
    | none => none
    | some net => if net.driver = some "overlay" then some net.id else none)

/-- Translation of the bindings of one published port. -/
def bindingsPorts (tp : Int) (proto : String) : List PortBinding → Option (List PortSpec)
  | [] => some []
  | b :: rest =>
    match b.hostPort with
    | none => bindingsPorts tp proto rest
    | some s =>
      if s = "" then bindingsPorts tp proto rest
      else
        match pyInt? s with
        | none => none
        | some pub =>
          (bindingsPorts tp proto rest).map (fun l =>
            { protocol := proto
              targetPort := tp
              publishedPort := pub
              publishMode :=
                match b.hostIp with
                | none => "ingress"
                | some ip =>
                  if ip = "" ∨ ip = "0.0.0.0" then "ingress" else "host" } :: l)

/-- The key-by-key loop of `collect_ports`; `none` models the exceptions
raised by tuple unpacking of `split("/")` and by `int(...)`. -/
def collectPortsAux : List (String × Option (List PortBinding)) → Option (List PortSpec)
  | [] => some []
  | (key, obs) :: rest =>
    let bs := obs.getD []
    if bs.isEmpty then collectPortsAux rest
    else
      match pySplitSlash key with
      | [portPart, proto] =>
        match pyInt? portPart with
        | none => none
        | some tp =>
          match bindingsPorts tp proto bs with
          | none => none
          | some these =>
            match collectPortsAux rest with
            | none => none
            | some more => some (these ++ more)
      | _ => none

/-- `collect_ports` over the container's `HostConfig.PortBindings`. -/
def collect_ports (c : ContainerAttrs) : Option (List PortSpec) :=
  collectPortsAux c.portBindings

/-- `requires_local_constraint`: a bind mount, or a volume whose source is
outside the engine's default volume root, pins the service to this node. -/
def requires_local_constraint (mounts : List SpecMount) : Bool :=
  mounts.any (fun m =>
    m.type = some "bind"
      ∨ (m.type = some "volume"
          ∧ ¬ m.source.startsWith "/var/lib/docker/volumes/"))

/-- Drop an optional string that is `None` or empty (the falsy filter on the
container-spec dictionary). -/
def normOptStr : Option String → Option String
  | some s => if s = "" then none else some s
  | none => none

/-- Drop an optional list that is `None` or empty. -/
def normOptList {α : Type} : Option (List α) → Option (List α)
  | some [] => none
  | some l => some l
  | none => none

/-- The `ContainerSpec` part of the translated service, after dropping
falsy entries; a `false` `tty` models the dropped `TTY` key. -/
structure SContainerSpec where
  image : Option String
  env : Option (List String)
  user : Option String
  dir : Option String
  command : Option (List String)
  args : Option (List String)
  mounts : Option (List SpecMount)
  tty : Bool
deriving Repr, DecidableEq

/-- The translated restart policy. -/
structure SRestartPolicy where
  condition : String
  maxAttempts : Option Int
deriving Repr, DecidableEq

/-- The translated task template; `placementConstraints = none` models an
absent `Placement` key. -/
structure STaskTemplate where
  containerSpec : SContainerSpec
  restartPolicy : SRestartPolicy
  placementConstraints : Option (List String)
deriving Repr, DecidableEq

/-- The translated service spec; `replicas` is the value under
`Mode.Replicated.Replicas`; empty `networks` and `none` `endpointPorts`
model the absent keys. -/
structure ServiceSpec where
  name : String
  taskTemplate : STaskTemplate
  replicas : Nat
  labels : List (String × String)
  networks : List String
  endpointPorts : Option (List PortSpec)
deriving Repr, DecidableEq

/-- The managed-marker label key. -/
def managedLabel : String := "autoswarm.managed"

/-- `build_service_spec`: the container-to-service translation; `none`
models the exception propagated out of `collect_ports`. -/
def build_service_spec (env : ManagerEnv) (c : ContainerAttrs) : Option ServiceSpec :=
  match collect_ports c with
  | none => none
  | some ports =>
    let mounts := collect_mounts c
    let condition0 := (normOptStr c.restartPolicy.name).getD "any"
    some
      { name := derive_service_name c
        taskTemplate :=
          { containerSpec :=
              { image := normOptStr c.config.image
                env := normOptList c.config.env
                user := normOptStr c.config.user
                dir := normOptStr c.config.workingDir
                command := normOptList c.config.entrypoint
                args := normOptList c.config.cmd
                mounts := normOptList (some mounts)
                tty := c.config.tty.getD false }
            restartPolicy :=
              { condition := if condition0 = "no" then "none" else condition0
                maxAttempts :=
                  match c.restartPolicy.maximumRetryCount with
                  | some n => if n = 0 then none else some n
                  | none => none }
            placementConstraints :=
              if requires_local_constraint mounts then
                some ["node.id==" ++ env.localNodeId]
              else none }
        replicas := 1
        labels :=
          [(managedLabel, "true"),
           ("autoswarm.source", String.mk (c.name.data.dropWhile (· = '/')))]
        networks := collect_networks env c
        endpointPorts := if ports.isEmpty then none else some ports }

/-! ## reconciler.py -/

/-- First match of the pattern Host\(`([^`]+)`\) at the head of the list:
literal "Host(`", then at least one non-backtick character, then "`)". -/
def hostMatchAt (l : List Char) : Option String :=
  if startsWithL "Host(`".data l then
    let rest := l.drop 6
    let body := rest.takeWhile (· ≠ '`')
    let tail := rest.dropWhile (· ≠ '`')
    match tail with
    | '`' :: ')' :: _ => if body.isEmpty then none else some (String.mk body)
    | _ => none
  else none

/-- Leftmost regex match: try each start position in order. -/
def hostSearch : List Char → Option String
  | [] => none
  | l@(_ :: t) =>
    match hostMatchAt l with
    | some s => some s
    | none => hostSearch t

/-- `HOST_RULE_RE.search(value)` returning capture group 1. -/
def hostRuleMatch? (v : String) : Option String :=
  hostSearch v.data

/-- Python `"Host(" in value`. -/
def containsHost (v : String) : Bool :=
  containsSub "Host(".data v.data

/-- `normalize_router_rule`: keep the value when the first Host clause
already names the host, otherwise replace the whole value. -/
def normalize_router_rule (v host : String) : String × Bool :=
  match hostRuleMatch? v with
  | some g => if g = host then (v, false) else ("Host(`" ++ host ++ "`)", true)
  | none => ("Host(`" ++ host ++ "`)", true)

/-- A domain record of a Dokploy application. -/
structure Domain where
  host : Option String
  domainType : Option String
  createdAt : Option String
  uniqueConfigKey : Option String
deriving Repr, DecidableEq

/-- A desired or current service network attachment. -/
structure NetworkAttachment where
  target : Option String
  aliases : Option (List String)
deriving Repr, DecidableEq

/-- A Dokploy application record. -/
structure Application where
  applicationId : String
  appName : String
  labelsSwarm : List (String × String)
  networkSwarm : List NetworkAttachment
  domains : List Domain
deriving Repr, DecidableEq

/-- The ambient state a `Reconciler` instance closes over; an empty
`traefikNetworkId` models an unresolved ingress network. -/
structure ReconcilerEnv where
  traefikNetworkName : String
  traefikNetworkId : String
deriving Repr, DecidableEq

/-- Python `x or y or ""` over optional strings. -/
def pyStrOr (o : Option String) (dflt : String) : String :=
  match o with
  | some s => if s = "" then dflt else s
  | none => dflt

/-- Sort key of a domain: `createdAt or uniqueConfigKey or ""`. -/
def domainKey (d : Domain) : String :=
  pyStrOr d.createdAt (pyStrOr d.uniqueConfigKey "")

/-- Fallback primary domain: the last element of the stable ascending sort
of the `domainType == "application"` entries by `domainKey`. -/
def fallbackDomain (domains : List Domain) : Option Domain :=
  let appDomains := domains.filter (fun d => d.domainType = some "application")
  if appDomains.isEmpty then none
  else (appDomains.mergeSort (fun a b => decide (domainKey a ≤ domainKey b))).getLast?

/-- The current-host scan of `build_desired_labels`: first regex match
among `.rule` keys whose value contains "Host(". -/
def findCurrentHost : List (String × String) → Option String
  | [] => none
  | (k, v) :: rest =>
    if k.endsWith ".rule" && containsHost v then
      match hostRuleMatch? v with
      | some h => some h
      | none => findCurrentHost rest
    else findCurrentHost rest

/-- The rewrite loop of `build_desired_labels`: normalise every `.rule`
label containing "Host(" against the primary host, tracking changes. -/
def rewriteLabels (host : String) : List (String × String) → List (String × String) × Bool
  | [] => ([], false)
  | (k, v) :: rest =>
    let tail := rewriteLabels host rest
    if k.endsWith ".rule" && containsHost v then
      let nv := normalize_router_rule v host
      if nv.2 then ((k, nv.1) :: tail.1, true) else ((k, v) :: tail.1, tail.2)
    else ((k, v) :: tail.1, tail.2)

/-- The primary-domain selection of `build_desired_labels`: the domain
matching the current rule host, else the fallback. -/
def primaryDomain (app : Application) : Option Domain :=
  match findCurrentHost app.labelsSwarm with
  | some h =>
    match app.domains.find? (fun d => d.host = some h) with
    | some d => some d
    | none => fallbackDomain app.domains
  | none => fallbackDomain app.domains

/-- `build_desired_labels`: the desired label mapping of an application
(`.rule` values normalised to the primary host) and the changed flag. -/
def build_desired_labels (app : Application) : List (String × String) × Bool :=
  match primaryDomain app with
  | none => (app.labelsSwarm, false)
  | some d =>
    match d.host with
    | some h =>
      if h = "" then (app.labelsSwarm, false) else rewriteLabels h app.labelsSwarm
    | none => (app.labelsSwarm, false)

/-- `build_desired_networks`: `networkSwarm` entries with a truthy target,
with the Traefik network appended when resolved and not already present. -/
def build_desired_networks (env : ReconcilerEnv) (app : Application) : List NetworkAttachment :=
  let networks := app.networkSwarm.filterMap (fun e =>
    match e.target with
    | some t =>
      if t = "" then none
      else some { target := some t, aliases := e.aliases }
    | none => none)
  let targets := networks.filterMap (fun n => n.target)
  if env.traefikNetworkId ≠ "" ∧ ¬ targets.contains env.traefikNetworkId then
    networks ++ [{ target := some env.traefikNetworkId, aliases := none }]
  else networks

/-- `service_labels_match`: every desired pair is already present. -/
def service_labels_match (current desired : List (String × String)) : Bool :=
  desired.all (fun kv => pyDictGet current kv.1 = some kv.2)

/-- The target set of a network list (falsy targets dropped). -/
def extract_targets (l : List NetworkAttachment) : List String :=
  l.filterMap (fun n =>
    match n.target with
    | some t => if t = "" then none else some t
    | none => none)

/-- Membership-wise equality of two lists read as sets. -/
def listSetEq (a b : List String) : Bool :=
  a.all (fun x => b.contains x) && b.all (fun x => a.contains x)

/-- `service_networks_match`: set equality of the extracted targets. -/
def service_networks_match (current desired : List NetworkAttachment) : Bool :=
  listSetEq (extract_targets current) (extract_targets desired)

/-- The container-spec slice of a live service's task template that the
reconciler reads and rewrites. -/
structure RContainerSpec where
  labels : List (String × String)
deriving Repr, DecidableEq

/-- The task-template slice carried through an update. -/
structure RTaskTemplate where
  containerSpec : RContainerSpec
deriving Repr, DecidableEq

/-- A live Swarm service as the reconciler sees it: spec labels, spec
networks, task template and the optimistic-concurrency version index. -/
structure SwarmService where
  name : String
  serviceId : String
  labels : List (String × String)
  networks : List NetworkAttachment
  taskTemplate : RTaskTemplate
  version : Option Nat
deriving Repr, DecidableEq

/-- Outcome of one `reconcile_application` call: the early returns, or the
single `update_service` call with the exact arguments passed to it. -/
inductive ReconcileResult where
  | noDesiredLabels : ReconcileResult
  | aligned : ReconcileResult
  | missingVersion : ReconcileResult
  | update (labels : List (String × String)) (taskTemplate : RTaskTemplate)
      (networks : Option (List NetworkAttachment)) (labelsChanged : Bool) : ReconcileResult
deriving Repr, DecidableEq

/-- `reconcile_application`: short-circuit on an empty desired mapping,
diff labels/container labels/networks, then issue a version-guarded update
with the merged labels and the replaced network list. -/
def reconcile_application (env : ReconcilerEnv) (app : Application)
    (svc : SwarmService) : ReconcileResult :=
  if ((build_desired_labels app).1).isEmpty then .noDesiredLabels
  else if service_labels_match svc.labels (build_desired_labels app).1
      && service_networks_match svc.networks (build_desired_networks env app)
      && service_labels_match svc.taskTemplate.containerSpec.labels
          (build_desired_labels app).1 then .aligned
  else
    match svc.version with
    | none => .missingVersion
    | some _ =>
      .update (dictUpdate svc.labels (build_desired_labels app).1)
        ⟨⟨dictUpdate svc.taskTemplate.containerSpec.labels (build_desired_labels app).1⟩⟩
        (if (build_desired_networks env app).isEmpty then none
         else some (build_desired_networks env app))
        (build_desired_labels app).2

/-- The service state after the engine applies an accepted update: the
submitted spec replaces the old one and the version index is bumped. -/
def applyUpdate (svc : SwarmService) (labels : List (String × String))
    (tt : RTaskTemplate) (networks : Option (List NetworkAttachment)) : SwarmService :=
  { svc with
    labels := labels
    taskTemplate := tt
    networks := networks.getD []
    version := svc.version.map (· + 1) }

/-! ## dokploy_client.py -/

/-- An environment of a Dokploy project (applications only). -/
structure CPEnvironment where
  applications : List Application
deriving Repr, DecidableEq

/-- A Dokploy project as returned by `project.all`. -/
structure CPProject where
  environments : List CPEnvironment
deriving Repr, DecidableEq

/-- Outcome of the `project.all` HTTP exchange as `_handle_response` sees
it: a transport or status failure, an unparseable body, or a parsed body
with its top-level error flag and the `result.data.json` payload. -/
inductive TrpcResponse where
  | transportError : TrpcResponse
  | parseError : TrpcResponse
  | body (hasErrorField : Bool) (resultDataJson : List CPProject) : TrpcResponse
deriving Repr, DecidableEq

/-- `_handle_response`: raise on transport/status errors, parse failures
and bodies carrying a top-level `error` field; otherwise unwrap the
payload. -/
def handle_response : TrpcResponse → Except Unit (List CPProject)
  | .transportError => .error ()
  | .parseError => .error ()
  | .body hasError payload => if hasError then .error () else .ok payload

/-- The mutable state of the Dokploy client cache. -/
structure CacheState where
  applications : List Application
  cacheTimestamp : Int
deriving Repr, DecidableEq

/-- Flattening `projects[].environments[].applications[]`. -/
def flatten_applications (projects : List CPProject) : List Application :=
  projects.flatMap (fun p => p.environments.flatMap (fun e => e.applications))

/-- `_refresh_cache`: disabled or TTL-fresh calls return unchanged; a
failed exchange is logged and leaves the state unchanged; a successful one
installs the flattened snapshot and the new timestamp. -/
def refresh_cache (enabled force : Bool) (now ttl : Int) (resp : TrpcResponse)
    (st : CacheState) : CacheState :=
  if !enabled then st
  else if !force && decide (now - st.cacheTimestamp < ttl) then st
  else
    match handle_response resp with
    | .error _ => st
    | .ok payload => { applications := flatten_applications payload, cacheTimestamp := now }

/-- `list_applications` reads the cached snapshot (deep copies are
identities on values). -/
def list_applications_cache (st : CacheState) : List Application :=
  st.applications

/-! ## Dictionary lemmas -/

theorem pyDictGet_append (a b : List (String × String)) (k : String) :
    pyDictGet (a ++ b) k = (pyDictGet a k).or (pyDictGet b k) := by
  induction a with
  | nil => simp [pyDictGet]
  | cons p t ih =>
    obtain ⟨k0, v0⟩ := p
    by_cases h : k0 = k <;> simp [pyDictGet, h, ih]

theorem pyDictGet_map_override (base upd : List (String × String)) (k : String) :
    pyDictGet (base.map (fun p => (p.1, (pyDictGet upd p.1).getD p.2))) k
      = (pyDictGet base k).map (fun v => (pyDictGet upd k).getD v) := by
  induction base with
  | nil => simp [pyDictGet]
  | cons p t ih =>
    obtain ⟨k0, v0⟩ := p
    by_cases h : k0 = k
    · subst h; simp [pyDictGet, ih]
    · simp [pyDictGet, h, ih]

theorem pyDictGet_filter_none (base upd : List (String × String)) (k : String)
    (h : pyDictGet base k = none) :
    pyDictGet (upd.filter (fun p => (pyDictGet base p.1).isNone)) k = pyDictGet upd k := by
  induction upd with
  | nil => simp
  | cons p t ih =>
    obtain ⟨k0, v0⟩ := p
    by_cases hk : k0 = k
    · subst hk; simp [List.filter_cons, h, pyDictGet]
    · by_cases hp : (pyDictGet base k0).isNone
      · simp [List.filter_cons, hp, pyDictGet, hk, ih]
      · simp [List.filter_cons, hp, pyDictGet, hk, ih]

theorem pyDictGet_filter_some (base upd : List (String × String)) (k : String)
    (w : String) (h : pyDictGet base k = some w) :
    pyDictGet (upd.filter (fun p => (pyDictGet base p.1).isNone)) k = none := by
  induction upd with
  | nil => simp [pyDictGet]
  | cons p t ih =>
    obtain ⟨k0, v0⟩ := p
    by_cases hk : k0 = k
    · subst hk; simp [List.filter_cons, h, pyDictGet, ih]
    · by_cases hp : (pyDictGet base k0).isNone
      · simp [List.filter_cons, hp, pyDictGet, hk, ih]
      · simp [List.filter_cons, hp, pyDictGet, hk, ih]

theorem dictUpdate_get (base upd : List (String × String)) (k : String) :
    pyDictGet (dictUpdate base upd) k = (pyDictGet upd k).or (pyDictGet base k) := by
  unfold dictUpdate
  rw [pyDictGet_append, pyDictGet_map_override]
  cases hb : pyDictGet base k with
  | none =>
    rw [pyDictGet_filter_none _ _ _ hb]
    cases hu : pyDictGet upd k <;> simp
  | some w =>
    rw [pyDictGet_filter_some _ _ _ _ hb]
    cases hu : pyDictGet upd k <;> simp

theorem pyDictGet_of_mem_nodup {des : List (String × String)} {k v : String}
    (hn : (des.map Prod.fst).Nodup) (hm : (k, v) ∈ des) : pyDictGet des k = some v := by
  induction des with
  | nil => cases hm
  | cons p t ih =>
    obtain ⟨k0, v0⟩ := p
    simp only [List.map_cons, List.nodup_cons] at hn
    rcases List.mem_cons.mp hm with h | h
    · simp only [Prod.mk.injEq] at h
      obtain ⟨rfl, rfl⟩ := h
      simp [pyDictGet]
    · have hne : k0 ≠ k := by
        rintro rfl
        exact hn.1 (List.mem_map.mpr ⟨(k0, v), h, rfl⟩)
      simp [pyDictGet, hne, ih hn.2 h]

theorem service_labels_match_dictUpdate (cur des : List (String × String))
    (hn : (des.map Prod.fst).Nodup) :
    service_labels_match (dictUpdate cur des) des = true := by
  unfold service_labels_match
  rw [List.all_eq_true]
  intro kv hkv
  obtain ⟨k, v⟩ := kv
  have hg := pyDictGet_of_mem_nodup hn hkv
  simp [dictUpdate_get, hg]

theorem listSetEq_refl (a : List String) : listSetEq a a = true := by
  unfold listSetEq
  rw [Bool.and_eq_true]
  constructor <;>
    (rw [List.all_eq_true]; intro x hx; exact List.elem_eq_true_of_mem hx)

theorem rewriteLabels_keys (h : String) (l : List (String × String)) :
    ((rewriteLabels h l).1).map Prod.fst = l.map Prod.fst := by
  induction l with
  | nil => simp [rewriteLabels]
  | cons p t ih =>
    obtain ⟨k, v⟩ := p
    by_cases hc : (k.endsWith ".rule" && containsHost v) = true
    · by_cases hm : (normalize_router_rule v h).2 = true <;>
        simp [rewriteLabels, hc, hm, ih]
    · simp [rewriteLabels, hc, ih]

theorem build_desired_labels_keys (app : Application) :
    ((build_desired_labels app).1).map Prod.fst = app.labelsSwarm.map Prod.fst := by
  unfold build_desired_labels
  cases hp : primaryDomain app with
  | none => simp
  | some d =>
    cases hh : d.host with
    | none => simp [hh]
    | some h =>
      by_cases he : h = "" <;> simp [hh, he, rewriteLabels_keys]

/-! ## Claim theorems -/

/-- C1. Every successfully translated service spec labels the service with
the managed marker `autoswarm.managed = "true"` and runs in replicated mode
with exactly one replica. -/
theorem build_service_spec_managed_and_single_replica
    (env : ManagerEnv) (c : ContainerAttrs) (spec : ServiceSpec)
    (h : build_service_spec env c = some spec) :
    pyDictGet spec.labels managedLabel = some "true" ∧ spec.replicas = 1 := by
  unfold build_service_spec at h
  cases hp : collect_ports c with
  | none => rw [hp] at h; cases h
  | some ports =>
    rw [hp] at h
    simp only [Option.some.injEq] at h
    subst h
    constructor
    · simp [pyDictGet]
    · rfl

/-- Concrete container used by the C1 witness. -/
def c1attrs : ContainerAttrs :=
  ⟨"/web", "0123abcd", ⟨none, none, none, none, none, none, none⟩,
    ⟨none, none⟩, [], [], []⟩

/-- The translation of `c1attrs`. -/
def c1spec : ServiceSpec :=
  ⟨"web", ⟨⟨none, none, none, none, none, none, none, false⟩, ⟨"any", none⟩, none⟩,
    1, [("autoswarm.managed", "true"), ("autoswarm.source", "web")], [], none⟩

/-- C1 witness: a concrete container translates with the managed marker set
and one replica. -/
theorem build_service_spec_managed_witness :
    pyDictGet c1spec.labels managedLabel = some "true" ∧ c1spec.replicas = 1 :=
  build_service_spec_managed_and_single_replica ⟨"n1", "", []⟩ c1attrs c1spec (by rfl)

/-- C7. `normalize_router_rule` keeps the value (reporting no change)
exactly when the first Host clause carries the requested host, replaces the
whole value with the canonical Host rule otherwise, and in particular
behaves as the two boundary examples state. -/
theorem normalize_router_rule_first_host (v h : String) :
    ((normalize_router_rule v h = (v, false)) ↔ hostRuleMatch? v = some h)
    ∧ (hostRuleMatch? v ≠ some h →
        normalize_router_rule v h = ("Host(`" ++ h ++ "`)", true))
    ∧ normalize_router_rule "Host(`a`)" "a" = ("Host(`a`)", false)
    ∧ normalize_router_rule "Host(`a`) && PathPrefix(`/x`)" "b"
        = ("Host(`b`)", true) := by
  refine ⟨⟨?_, ?_⟩, ?_, by decide, by decide⟩
  · intro he
    cases hm : hostRuleMatch? v with
    | none =>
      simp only [normalize_router_rule, hm] at he
      exact absurd (congrArg Prod.snd he) (by simp)
    | some g =>
      by_cases hg : g = h
      · exact congrArg some hg
      · simp only [normalize_router_rule, hm, if_neg hg] at he
        exact absurd (congrArg Prod.snd he) (by simp)
  · intro hm
    simp [normalize_router_rule, hm]
  · intro hne
    cases hm : hostRuleMatch? v with
    | none => simp only [normalize_router_rule, hm]
    | some g =>
      have hg : g ≠ h := fun he => hne (hm ▸ congrArg some he ▸ rfl)
      simp only [normalize_router_rule, hm, if_neg hg]

/-- C7 witness: a rule without any Host clause is rewritten to the
canonical Host rule for the requested host. -/
theorem normalize_router_rule_first_host_witness :
    normalize_router_rule "PathPrefix(`/x`)" "h" = ("Host(`h`)", true) :=
  (normalize_router_rule_first_host "PathPrefix(`/x`)" "h").2.1 (by decide)

/-- C9. A cache refresh whose HTTP exchange fails — transport or status
error, unparseable body, or a body with a top-level error field — leaves
the cached snapshot and the cache timestamp unchanged, so reads keep
serving the previous snapshot. -/
theorem refresh_cache_failure_keeps_state (enabled force : Bool) (now ttl : Int)
    (resp : TrpcResponse) (st : CacheState)
    (h : resp = .transportError ∨ resp = .parseError
        ∨ ∃ p, resp = .body true p) :
    refresh_cache enabled force now ttl resp st = st
    ∧ list_applications_cache (refresh_cache enabled force now ttl resp st)
        = list_applications_cache st := by
  have hh : handle_response resp = .error () := by
    rcases h with rfl | rfl | ⟨p, rfl⟩ <;> simp [handle_response]
  have h1 : refresh_cache enabled force now ttl resp st = st := by
    simp [refresh_cache, hh]
  exact ⟨h1, by rw [h1]⟩

/-- C9 witness: a concrete failing refresh leaves a concrete state as is. -/
theorem refresh_cache_failure_witness :
    refresh_cache true true 100 30 TrpcResponse.transportError ⟨[], 7⟩ = ⟨[], 7⟩
    ∧ list_applications_cache
        (refresh_cache true true 100 30 TrpcResponse.transportError ⟨[], 7⟩)
      = list_applications_cache ⟨[], 7⟩ :=
  refresh_cache_failure_keeps_state true true 100 30 TrpcResponse.transportError
    ⟨[], 7⟩ (Or.inl rfl)

/-- Inversion of `reconcile_application` on the update outcome: the exact
arguments of the issued call and the conditions that led there. -/
theorem reconcile_update_inv (env : ReconcilerEnv) (app : Application)
    (svc : SwarmService) (L : List (String × String)) (T : RTaskTemplate)
    (N : Option (List NetworkAttachment)) (lc : Bool)
    (h : reconcile_application env app svc = .update L T N lc) :
    L = dictUpdate svc.labels (build_desired_labels app).1
    ∧ T = ⟨⟨dictUpdate svc.taskTemplate.containerSpec.labels
          (build_desired_labels app).1⟩⟩
    ∧ N = (if (build_desired_networks env app).isEmpty then none
           else some (build_desired_networks env app))
    ∧ lc = (build_desired_labels app).2
    ∧ ((build_desired_labels app).1).isEmpty = false
    ∧ svc.version ≠ none
    ∧ (service_labels_match svc.labels (build_desired_labels app).1
        && service_networks_match svc.networks (build_desired_networks env app)
        && service_labels_match svc.taskTemplate.containerSpec.labels
            (build_desired_labels app).1) = false := by
  unfold reconcile_application at h
  by_cases h1 : ((build_desired_labels app).1).isEmpty = true
  · rw [if_pos h1] at h; exact absurd h (by simp)
  · rw [if_neg h1] at h
    by_cases h2 : (service_labels_match svc.labels (build_desired_labels app).1
        && service_networks_match svc.networks (build_desired_networks env app)
        && service_labels_match svc.taskTemplate.containerSpec.labels
            (build_desired_labels app).1) = true
    · rw [if_pos h2] at h; exact absurd h (by simp)
    · rw [if_neg h2] at h
      cases hv : svc.version with
      | none => rw [hv] at h; exact absurd h (by simp)
      | some ver =>
        rw [hv] at h
        simp only [ReconcileResult.update.injEq] at h
        obtain ⟨hL, hT, hN, hlc⟩ := h
        exact ⟨hL.symm, hT.symm, hN.symm, hlc.symm,
          Bool.not_eq_true _ ▸ h1, Option.some_ne_none _,
          Bool.not_eq_true _ ▸ h2⟩

/-- C2. When reconciliation issues an update, the service-level label
mapping it submits is the current mapping overridden by the desired one
(desired wins on overlap), and hence a superset of the desired mapping. -/
theorem reconcile_update_merges_labels (env : ReconcilerEnv) (app : Application)
    (svc : SwarmService) (L : List (String × String)) (T : RTaskTemplate)
    (N : Option (List NetworkAttachment)) (lc : Bool)
    (h : reconcile_application env app svc = .update L T N lc) :
    (∀ k, pyDictGet L k
      = ((pyDictGet (build_desired_labels app).1 k).or (pyDictGet svc.labels k)))
    ∧ (∀ k v, pyDictGet (build_desired_labels app).1 k = some v →
        pyDictGet L k = some v) := by
  obtain ⟨hL, -, -, -, -, -, -⟩ := reconcile_update_inv env app svc L T N lc h
  subst hL
  refine ⟨fun k => dictUpdate_get _ _ _, fun k v hkv => ?_⟩
  rw [dictUpdate_get, hkv]
  rfl

/-- C3. Reconciliation is idempotent: an issued update leads to a state on
which the next reconcile decides "no change", and a "no change" decision
repeats on the unchanged state. -/
theorem reconcile_idempotent (env : ReconcilerEnv) (app : Application)
    (svc : SwarmService) (hn : (app.labelsSwarm.map Prod.fst).Nodup) :
    (∀ L T N lc, reconcile_application env app svc = .update L T N lc →
      reconcile_application env app (applyUpdate svc L T N) = .aligned)
    ∧ (reconcile_application env app svc = .aligned →
      reconcile_application env app svc = .aligned) := by
  have hndes : (((build_desired_labels app).1).map Prod.fst).Nodup := by
    rw [build_desired_labels_keys]; exact hn
  refine ⟨?_, fun h => h⟩
  intro L T N lc h
  obtain ⟨hL, hT, hN, -, h1, -, -⟩ := reconcile_update_inv env app svc L T N lc h
  subst hL; subst hT; subst hN
  unfold reconcile_application
  rw [if_neg (by simp [h1])]
  have hsl : service_labels_match
      (applyUpdate svc (dictUpdate svc.labels (build_desired_labels app).1)
        ⟨⟨dictUpdate svc.taskTemplate.containerSpec.labels
            (build_desired_labels app).1⟩⟩
        (if (build_desired_networks env app).isEmpty then none
         else some (build_desired_networks env app))).labels
      (build_desired_labels app).1 = true :=
    service_labels_match_dictUpdate _ _ hndes
  have hcl : service_labels_match
      (applyUpdate svc (dictUpdate svc.labels (build_desired_labels app).1)
        ⟨⟨dictUpdate svc.taskTemplate.containerSpec.labels
            (build_desired_labels app).1⟩⟩
        (if (build_desired_networks env app).isEmpty then none
         else some (build_desired_networks env app))).taskTemplate.containerSpec.labels
      (build_desired_labels app).1 = true :=
    service_labels_match_dictUpdate _ _ hndes
  have hnet : service_networks_match
      (applyUpdate svc (dictUpdate svc.labels (build_desired_labels app).1)
        ⟨⟨dictUpdate svc.taskTemplate.containerSpec.labels
            (build_desired_labels app).1⟩⟩
        (if (build_desired_networks env app).isEmpty then none
         else some (build_desired_networks env app))).networks
      (build_desired_networks env app) = true := by
    show service_networks_match
      ((if (build_desired_networks env app).isEmpty then none
        else some (build_desired_networks env app)).getD [])
      (build_desired_networks env app) = true
    by_cases hde : (build_desired_networks env app).isEmpty = true
    · rw [if_pos hde, List.isEmpty_eq_true.mp hde]
      rfl
    · rw [if_neg hde]
      exact listSetEq_refl _
  rw [if_pos (by rw [hsl, hcl, hnet]; rfl)]

/-- C4. Reconciliation issues the `update_service` call exactly when the
desired label mapping is non-empty, the service's version index is
present, and at least one of the three diffs (service labels, container
labels, network targets) is unsatisfied; otherwise the service is left
unchanged. -/
theorem reconcile_update_iff (env : ReconcilerEnv) (app : Application)
    (svc : SwarmService) :
    (∃ L T N lc, reconcile_application env app svc = .update L T N lc)
    ↔ ((build_desired_labels app).1 ≠ []
        ∧ svc.version ≠ none
        ∧ (service_labels_match svc.labels (build_desired_labels app).1 = false
          ∨ service_labels_match svc.taskTemplate.containerSpec.labels
              (build_desired_labels app).1 = false
          ∨ service_networks_match svc.networks
              (build_desired_networks env app) = false)) := by
  constructor
  · rintro ⟨L, T, N, lc, h⟩
    obtain ⟨-, -, -, -, h1, hv, h2⟩ := reconcile_update_inv env app svc L T N lc h
    refine ⟨List.isEmpty_eq_false.mp h1, hv, ?_⟩
    rcases Bool.and_eq_false_iff.mp h2 with h3 | h3
    · rcases Bool.and_eq_false_iff.mp h3 with h4 | h4
      · exact Or.inl h4
      · exact Or.inr (Or.inr h4)
    · exact Or.inr (Or.inl h3)
  · rintro ⟨hne, hv, hor⟩
    obtain ⟨ver, hver⟩ := Option.ne_none_iff_exists'.mp hv
    have h1 : ((build_desired_labels app).1).isEmpty = false :=
      List.isEmpty_eq_false.mpr hne
    have h2 : (service_labels_match svc.labels (build_desired_labels app).1
        && service_networks_match svc.networks (build_desired_networks env app)
        && service_labels_match svc.taskTemplate.containerSpec.labels
            (build_desired_labels app).1) = false := by
      rcases hor with h3 | h3 | h3 <;> simp [h3]
    refine ⟨dictUpdate svc.labels (build_desired_labels app).1,
      ⟨⟨dictUpdate svc.taskTemplate.containerSpec.labels
          (build_desired_labels app).1⟩⟩,
      (if (build_desired_networks env app).isEmpty then none
       else some (build_desired_networks env app)),
      (build_desired_labels app).2, ?_⟩
    unfold reconcile_application
    rw [if_neg (by simp [h1]), if_neg (by simp [h2]), hver]

/-- Concrete application used by the reconciler witnesses. -/
def wapp : Application := ⟨"appid", "x", [("a", "b")], [], []⟩

/-- Concrete service used by the reconciler witnesses. -/
def wsvc : SwarmService := ⟨"x", "sid", [], [], ⟨⟨[]⟩⟩, some 5⟩

/-- Concrete reconciler environment used by the reconciler witnesses. -/
def wenv : ReconcilerEnv := ⟨"traefik-public", ""⟩

/-- C2 witness: the labels submitted for a concrete update are the current
labels overridden by the desired ones. -/
theorem reconcile_update_merges_labels_witness :
    pyDictGet [("a", "b")] "a"
      = ((pyDictGet (build_desired_labels wapp).1 "a").or (pyDictGet wsvc.labels "a")) :=
  (reconcile_update_merges_labels wenv wapp wsvc [("a", "b")] ⟨⟨[("a", "b")]⟩⟩
    none false (by rfl)).1 "a"

/-- C3 witness: after a concrete update, the next reconcile is aligned. -/
theorem reconcile_idempotent_witness :
    reconcile_application wenv wapp
        (applyUpdate wsvc [("a", "b")] ⟨⟨[("a", "b")]⟩⟩ none)
      = ReconcileResult.aligned :=
  (reconcile_idempotent wenv wapp wsvc (by decide)).1 [("a", "b")]
    ⟨⟨[("a", "b")]⟩⟩ none false (by rfl)

/-- C4 witness: the unsatisfied-label diff on a concrete pair makes the
reconciler issue an update call rather than leaving the pair aligned. -/
theorem reconcile_update_iff_witness :
    reconcile_application wenv wapp wsvc ≠ ReconcileResult.aligned := by
  obtain ⟨L, T, N, lc, h⟩ := (reconcile_update_iff wenv wapp wsvc).mpr
    ⟨by decide, by decide, Or.inl (by decide)⟩
  intro hal
  rw [hal] at h
  cases h

theorem requires_local_constraint_iff (mounts : List SpecMount) :
    requires_local_constraint mounts = true
      ↔ ∃ m ∈ mounts, m.type = some "bind"
          ∨ (m.type = some "volume"
              ∧ ¬ m.source.startsWith "/var/lib/docker/volumes/") := by
  simp [requires_local_constraint, List.any_eq_true]

/-- C6. A translated service is pinned to the local node exactly when some
translated mount is a bind mount or a volume living outside the engine's
default volume root; otherwise no placement constraints are set. -/
theorem build_service_spec_placement_iff (env : ManagerEnv) (c : ContainerAttrs)
    (spec : ServiceSpec) (h : build_service_spec env c = some spec) :
    (spec.taskTemplate.placementConstraints = some ["node.id==" ++ env.localNodeId]
      ↔ ∃ m ∈ collect_mounts c, m.type = some "bind"
          ∨ (m.type = some "volume"
              ∧ ¬ m.source.startsWith "/var/lib/docker/volumes/"))
    ∧ (¬(∃ m ∈ collect_mounts c, m.type = some "bind"
          ∨ (m.type = some "volume"
              ∧ ¬ m.source.startsWith "/var/lib/docker/volumes/")) →
        spec.taskTemplate.placementConstraints = none) := by
  unfold build_service_spec at h
  cases hp : collect_ports c with
  | none => rw [hp] at h; cases h
  | some ports =>
    rw [hp] at h
    simp only [Option.some.injEq] at h
    subst h
    by_cases hr : requires_local_constraint (collect_mounts c) = true
    · constructor
      · exact iff_of_true (by simp [hr]) ((requires_local_constraint_iff _).mp hr)
      · intro hno
        exact absurd ((requires_local_constraint_iff _).mp hr) hno
    · constructor
      · refine iff_of_false ?_ (fun he => hr ((requires_local_constraint_iff _).mpr he))
        simp [Bool.not_eq_true _ ▸ hr]
      · intro _
        simp [Bool.not_eq_true _ ▸ hr]

/-- Concrete container with a bind mount, used by the C6 witness. -/
def c6attrs : ContainerAttrs :=
  ⟨"/db", "fff", ⟨none, none, none, none, none, none, none⟩, ⟨none, none⟩,
    [], [], [⟨some "/d", some "/s", some "bind", some true, none⟩]⟩

/-- The translation of `c6attrs`. -/
def c6spec : ServiceSpec :=
  ⟨"db",
    ⟨⟨none, none, none, none, none, none,
        some [⟨"/d", "/s", some "bind", false, some "rprivate"⟩], false⟩,
      ⟨"any", none⟩, some ["node.id==" ++ "n1"]⟩,
    1, [("autoswarm.managed", "true"), ("autoswarm.source", "db")], [], none⟩

/-- C6 witness: a concrete container with a bind mount translates with the
local-node placement constraint. -/
theorem build_service_spec_placement_witness :
    c6spec.taskTemplate.placementConstraints = some ["node.id==" ++ "n1"] :=
  (build_service_spec_placement_iff ⟨"n1", "", []⟩ c6attrs c6spec (by rfl)).1.mpr
    ⟨⟨"/d", "/s", some "bind", false, some "rprivate"⟩, by decide, Or.inl rfl⟩

/-- Concrete container whose restart policy names a zero retry count. -/
def c8attrs : ContainerAttrs :=
  ⟨"/r", "fff", ⟨none, none, none, none, none, none, none⟩,
    ⟨some "on-failure", some 0⟩, [], [], []⟩

/-- C8 counterexample: the source specifies `MaximumRetryCount` (as 0), yet
the translated restart policy carries no `MaxAttempts`, refuting the
claimed "included iff the source specified MaximumRetryCount". -/
theorem restart_policy_max_attempts_counterexample :
    (build_service_spec ⟨"n1", "", []⟩ c8attrs).map
        (fun s => s.taskTemplate.restartPolicy.maxAttempts) = some none
    ∧ c8attrs.restartPolicy.maximumRetryCount = some 0 := by
  exact ⟨rfl, rfl⟩

/-- C8 (amended). The translated restart condition remaps `"no"` to
`"none"`, defaults a missing or empty name to `"any"`, and passes any other
name through; `MaxAttempts` is included, with the source value, exactly
when the source specified a non-zero `MaximumRetryCount`. -/
theorem restart_policy_translation (env : ManagerEnv) (c : ContainerAttrs)
    (spec : ServiceSpec) (h : build_service_spec env c = some spec) :
    (c.restartPolicy.name = some "no" →
        spec.taskTemplate.restartPolicy.condition = "none")
    ∧ ((c.restartPolicy.name = none ∨ c.restartPolicy.name = some "") →
        spec.taskTemplate.restartPolicy.condition = "any")
    ∧ (∀ s, c.restartPolicy.name = some s → s ≠ "no" → s ≠ "" →
        spec.taskTemplate.restartPolicy.condition = s)
    ∧ ((∃ n, spec.taskTemplate.restartPolicy.maxAttempts = some n)
        ↔ (∃ n, c.restartPolicy.maximumRetryCount = some n ∧ n ≠ 0))
    ∧ (∀ n, spec.taskTemplate.restartPolicy.maxAttempts = some n →
        c.restartPolicy.maximumRetryCount = some n) := by
  unfold build_service_spec at h
  cases hp : collect_ports c with
  | none => rw [hp] at h; cases h
  | some ports =>
    rw [hp] at h
    simp only [Option.some.injEq] at h
    subst h
    refine ⟨?_, ?_, ?_, ?_, ?_⟩
    · intro hn; simp [hn, normOptStr]
    · rintro (hn | hn) <;> simp [hn, normOptStr]
    · intro s hn hno hne
      simp [hn, normOptStr, hne, hno]
    · cases hc : c.restartPolicy.maximumRetryCount with
      | none => simp [hc]
      | some m =>
        by_cases hm : m = 0
        · subst hm; simp [hc]
        · simp [hc, hm]
    · intro n hn
      cases hc : c.restartPolicy.maximumRetryCount with
      | none => rw [hc] at hn; cases hn
      | some m =>
        rw [hc] at hn
        dsimp only [] at hn
        by_cases hm : m = 0
        · rw [if_pos hm] at hn; cases hn
        · rw [if_neg hm] at hn
          rw [Option.some.injEq] at hn
          rw [hn]

/-- Concrete container with restart policy `"no"` and three retries. -/
def c8w : ContainerAttrs :=
  ⟨"/r", "fff", ⟨none, none, none, none, none, none, none⟩,
    ⟨some "no", some 3⟩, [], [], []⟩

/-- The translation of `c8w`. -/
def c8wspec : ServiceSpec :=
  ⟨"r", ⟨⟨none, none, none, none, none, none, none, false⟩,
      ⟨"none", some 3⟩, none⟩,
    1, [("autoswarm.managed", "true"), ("autoswarm.source", "r")], [], none⟩

/-- C8 witness: a concrete `"no"` policy with three retries translates to
condition `"none"`. -/
theorem restart_policy_translation_witness :
    c8wspec.taskTemplate.restartPolicy.condition = "none" :=
  (restart_policy_translation ⟨"n1", "", []⟩ c8w c8wspec (by rfl)).1 rfl

/-- Well-formedness of a port-bindings key: exactly one `/` separator and
an integer-parsing prefix. -/
def portKeyWf (k : String) : Bool :=
  match pySplitSlash k with
  | [p, _] => (pyInt? p).isSome
  | _ => false

theorem bindingsPorts_wf (tp : Int) (proto : String) :
    ∀ (bs : List PortBinding) (l : List PortSpec),
      bindingsPorts tp proto bs = some l →
      ∀ b ∈ bs, ∀ s, b.hostPort = some s → s ≠ "" → (pyInt? s).isSome = true := by
  intro bs
  induction bs with
  | nil => intro l _ b hb; cases hb
  | cons b0 rest ih =>
    intro l h b hb s hs hne
    rcases List.mem_cons.mp hb with rfl | hb'
    · obtain ⟨hip0, hp0⟩ := b
      have hs' : hp0 = some s := hs
      subst hs'
      simp only [bindingsPorts] at h
      rw [if_neg hne] at h
      cases hpi : pyInt? s with
      | none => rw [hpi] at h; simp at h
      | some pub => simp [hpi]
    · obtain ⟨hip0, hp0⟩ := b0
      cases hp0 with
      | none =>
        simp only [bindingsPorts] at h
        exact ih l h b hb' s hs hne
      | some s0 =>
        simp only [bindingsPorts] at h
        by_cases h0 : s0 = ""
        · rw [if_pos h0] at h
          exact ih l h b hb' s hs hne
        · rw [if_neg h0] at h
          cases hpi : pyInt? s0 with
          | none => rw [hpi] at h; simp at h
          | some pub =>
            rw [hpi] at h
            cases hr : bindingsPorts tp proto rest with
            | none => rw [hr] at h; simp at h
            | some l2 => exact ih l2 hr b hb' s hs hne

theorem collectPortsAux_wf :
    ∀ (l : List (String × Option (List PortBinding))) (ps : List PortSpec),
      collectPortsAux l = some ps →
      ∀ k obs, (k, obs) ∈ l → obs.getD [] ≠ [] →
        portKeyWf k = true
        ∧ ∀ b ∈ obs.getD [], ∀ s, b.hostPort = some s → s ≠ "" →
            (pyInt? s).isSome = true := by
  intro l
  induction l with
  | nil => intro ps _ k obs hm; cases hm
  | cons e t ih =>
    obtain ⟨k0, obs0⟩ := e
    intro ps h k obs hm hne
    simp only [collectPortsAux] at h
    by_cases hbs : ((obs0.getD [] : List PortBinding)).isEmpty = true
    · rw [if_pos hbs] at h
      rcases List.mem_cons.mp hm with he | hm'
      · have ho : obs = obs0 := congrArg Prod.snd he
        rw [← ho] at hbs
        exact absurd (List.isEmpty_eq_true.mp hbs) hne
      · exact ih ps h k obs hm' hne
    · rw [if_neg hbs] at h
      rcases hsp : pySplitSlash k0 with _ | ⟨p, rest1⟩
      · rw [hsp] at h; simp at h
      · rcases rest1 with _ | ⟨proto, rest2⟩
        · rw [hsp] at h; simp at h
        · rcases rest2 with _ | ⟨x, xs⟩
          · rw [hsp] at h
            dsimp only [] at h
            cases hpi : pyInt? p with
            | none => rw [hpi] at h; simp at h
            | some tp =>
              rw [hpi] at h
              dsimp only [] at h
              cases hbp : bindingsPorts tp proto (obs0.getD []) with
              | none => rw [hbp] at h; simp at h
              | some these =>
                rw [hbp] at h
                dsimp only [] at h
                cases hrest : collectPortsAux t with
                | none => rw [hrest] at h; simp at h
                | some more =>
                  rcases List.mem_cons.mp hm with he | hm'
                  · have hk : k = k0 := congrArg Prod.fst he
                    have ho : obs = obs0 := congrArg Prod.snd he
                    subst hk
                    refine ⟨by simp [portKeyWf, hsp, hpi], ?_⟩
                    rw [ho]
                    exact bindingsPorts_wf tp proto _ _ hbp
                  · exact ih more hrest k obs hm' hne
          · rw [hsp] at h; simp at h

/-- Concrete attributes with a slash-less key and no bindings. -/
def c10ok : ContainerAttrs :=
  ⟨"", "", ⟨none, none, none, none, none, none, none⟩, ⟨none, none⟩,
    [("80", some [])], [], []⟩

/-- Concrete attributes with a slash-less key and a non-empty binding. -/
def c10bad : ContainerAttrs :=
  ⟨"", "", ⟨none, none, none, none, none, none, none⟩, ⟨none, none⟩,
    [("80", some [⟨none, some "8080"⟩])], [], []⟩

/-- C10 counterexample: a port-bindings key without a `/` separator whose
binding list is empty is skipped, so `collect_ports` succeeds on an input
violating the claimed precondition. -/
theorem collect_ports_counterexample :
    collect_ports c10ok = some [] ∧ portKeyWf "80" = false := by
  exact ⟨rfl, rfl⟩

/-- C10 (amended). `collect_ports` succeeds only when every port-bindings
key with a non-empty binding list splits on `/` with an integer prefix and
every present non-empty `HostPort` in such a list parses as an integer;
the same slash-less key with a non-empty binding list makes it fail. -/
theorem collect_ports_success_requires_wf (c : ContainerAttrs) (ps : List PortSpec)
    (h : collect_ports c = some ps) :
    (∀ k obs, (k, obs) ∈ c.portBindings → obs.getD [] ≠ [] →
      portKeyWf k = true
      ∧ ∀ b ∈ obs.getD [], ∀ s, b.hostPort = some s → s ≠ "" →
          (pyInt? s).isSome = true)
    ∧ collect_ports c10bad = none := by
  exact ⟨collectPortsAux_wf c.portBindings ps h, rfl⟩

/-- C10 witness: on a concrete well-formed input the success of
`collect_ports` certifies the key shape. -/
theorem collect_ports_success_requires_wf_witness :
    portKeyWf "80/tcp" = true ∧ collect_ports c10bad = none := by
  have h := collect_ports_success_requires_wf
    ⟨"", "", ⟨none, none, none, none, none, none, none⟩, ⟨none, none⟩,
      [("80/tcp", some [⟨none, some "8080"⟩])], [], []⟩
    [⟨"tcp", 80, 8080, "ingress"⟩] (by rfl)
  exact ⟨(h.1 "80/tcp" (some [⟨none, some "8080"⟩]) (by decide) (by decide)).1, h.2⟩

/-! ## Character lemmas for the service-name sanitiser -/

theorem uint32_le_iff (a b : UInt32) : a ≤ b ↔ a.toNat ≤ b.toNat := by
  rw [UInt32.le_def, BitVec.le_def]
  exact Iff.rfl

theorem char_isUpper_iff (c : Char) :
    c.isUpper = true ↔ 65 ≤ c.toNat ∧ c.toNat ≤ 90 := by
  unfold Char.isUpper
  rw [Bool.and_eq_true, decide_eq_true_eq, decide_eq_true_eq,
    ge_iff_le, uint32_le_iff, uint32_le_iff]
  exact Iff.rfl

theorem char_isLower_iff (c : Char) :
    c.isLower = true ↔ 97 ≤ c.toNat ∧ c.toNat ≤ 122 := by
  unfold Char.isLower
  rw [Bool.and_eq_true, decide_eq_true_eq, decide_eq_true_eq,
    ge_iff_le, uint32_le_iff, uint32_le_iff]
  exact Iff.rfl

theorem char_isDigit_iff (c : Char) :
    c.isDigit = true ↔ 48 ≤ c.toNat ∧ c.toNat ≤ 57 := by
  unfold Char.isDigit
  rw [Bool.and_eq_true, decide_eq_true_eq, decide_eq_true_eq,
    ge_iff_le, uint32_le_iff, uint32_le_iff]
  exact Iff.rfl

theorem char_toNat_ofNat {n : Nat} (h : n < 55296) : (Char.ofNat n).toNat = n := by
  unfold Char.ofNat
  rw [dif_pos (Or.inl h)]
  rfl

theorem isLower_toLower_of_isUpper {c : Char} (h : c.isUpper = true) :
    (c.toLower).isLower = true := by
  obtain ⟨h1, h2⟩ := (char_isUpper_iff c).mp h
  simp only [Char.toLower]
  rw [if_pos ⟨h1, h2⟩, char_isLower_iff, char_toNat_ofNat (by omega)]
  omega

theorem toLower_eq_self_of_not_upper {c : Char}
    (h : ¬(65 ≤ c.toNat ∧ c.toNat ≤ 90)) : c.toLower = c := by
  simp only [Char.toLower]
  rw [if_neg h]

/-- The character class `[a-z0-9_-]` the derived service name must stay in. -/
def validChar (d : Char) : Bool :=
  d.isLower || d.isDigit || d == '-' || d == '_'

theorem validChar_sanitizeChar (c : Char) : validChar (sanitizeChar c) = true := by
  unfold sanitizeChar
  by_cases ha : c.isAlphanum = true
  · rw [if_pos ha]
    unfold Char.isAlphanum Char.isAlpha at ha
    rw [Bool.or_eq_true, Bool.or_eq_true] at ha
    rcases ha with (hu | hl) | hd
    · simp [validChar, isLower_toLower_of_isUpper hu]
    · obtain ⟨h1, h2⟩ := (char_isLower_iff c).mp hl
      rw [toLower_eq_self_of_not_upper (by omega)]
      simp [validChar, hl]
    · obtain ⟨h1, h2⟩ := (char_isDigit_iff c).mp hd
      rw [toLower_eq_self_of_not_upper (by omega)]
      simp [validChar, hd]
  · rw [if_neg ha]
    by_cases hd : c = '-' ∨ c = '_'
    · rw [if_pos hd]
      rcases hd with rfl | rfl <;> decide
    · rw [if_neg hd]; decide

theorem dropWhile_head?_not (p : Char → Bool) :
    ∀ (l : List Char) (a : Char), (l.dropWhile p).head? = some a → p a = false := by
  intro l
  induction l with
  | nil => intro a h; cases h
  | cons c t ih =>
    intro a h
    rw [List.dropWhile_cons] at h
    by_cases hp : p c = true
    · rw [if_pos hp] at h
      exact ih a h
    · rw [if_neg hp] at h
      rw [List.head?_cons, Option.some.injEq] at h
      rw [← h]
      exact Bool.not_eq_true _ ▸ hp

theorem dropWhile_getLast?_eq (p : Char → Bool) :
    ∀ (l : List Char) (a : Char),
      (l.dropWhile p).getLast? = some a → l.getLast? = some a := by
  intro l
  induction l with
  | nil => intro a h; cases h
  | cons c t ih =>
    intro a h
    rw [List.dropWhile_cons] at h
    by_cases hp : p c = true
    · rw [if_pos hp] at h
      have ht := ih a h
      have hne : t ≠ [] := by
        intro he
        rw [he] at ht
        cases ht
      cases t with
      | nil => exact absurd rfl hne
      | cons b u => rw [List.getLast?_cons_cons]; exact ht
    · rw [if_neg hp] at h
      exact h

theorem mem_stripDash {l : List Char} {d : Char} (h : d ∈ stripDash l) : d ∈ l := by
  unfold stripDash at h
  rw [List.mem_reverse] at h
  have h1 := (List.dropWhile_suffix (fun x => x = '-')).sublist.mem h
  rw [List.mem_reverse] at h1
  exact (List.dropWhile_suffix (fun x => x = '-')).sublist.mem h1

theorem stripDash_getLast?_ne {l : List Char} {d : Char}
    (h : (stripDash l).getLast? = some d) : d ≠ '-' := by
  unfold stripDash at h
  rw [List.getLast?_reverse] at h
  have := dropWhile_head?_not (fun x => x = '-') _ _ h
  simpa using this

theorem stripDash_head?_ne {l : List Char} {d : Char}
    (h : (stripDash l).head? = some d) : d ≠ '-' := by
  unfold stripDash at h
  rw [List.head?_reverse] at h
  have h2 := dropWhile_getLast?_eq (fun x => x = '-') _ _ h
  rw [List.getLast?_reverse] at h2
  have := dropWhile_head?_not (fun x => x = '-') _ _ h2
  simpa using this

/-- Container attributes with an empty name and an empty id. -/
def c5empty : ContainerAttrs :=
  ⟨"", "", ⟨none, none, none, none, none, none, none⟩, ⟨none, none⟩, [], [], []⟩

/-- C5 counterexample: with empty name and id the fallback produces
`"autoswarm-"`, which ends in `-`, refuting the claimed "no trailing `-`"
for arbitrary container attributes. -/
theorem derive_service_name_counterexample :
    derive_service_name c5empty = "autoswarm-"
    ∧ (derive_service_name c5empty).data.getLast? = some '-' := by
  exact ⟨rfl, rfl⟩

/-- C5 (amended). For a container whose name consists of ASCII characters
and whose id is non-empty and consists of lowercase alphanumerics (as
engine-issued names and ids are), the derived service name is non-empty,
stays in `[a-z0-9_-]`, and has no leading or trailing `-`. The ASCII
hypothesis on the name confines the statement to the domain where
`sanitizeChar` coincides with the source's Unicode `isalnum`/`lower`:
outside it the program keeps lowercased non-ASCII letters (a name `"/Ω"`
yields `"ω"`), violating the character class. -/
theorem derive_service_name_sanitized (c : ContainerAttrs)
    (hascii : ∀ ch ∈ c.name.data, ch.toNat < 128)
    (hid : c.id ≠ "")
    (hch : ∀ ch ∈ c.id.data, ch.isLower = true ∨ ch.isDigit = true) :
    derive_service_name c ≠ ""
    ∧ (∀ d ∈ (derive_service_name c).data, validChar d = true)
    ∧ (derive_service_name c).data.head? ≠ some '-'
    ∧ (derive_service_name c).data.getLast? ≠ some '-' := by
  have hiddata : c.id.data ≠ [] := by
    intro he
    exact hid (String.ext (he.trans rfl))
  have htake : ∀ n, n ≠ 0 → c.id.data.take n ≠ [] := by
    intro n hn
    cases hd : c.id.data with
    | nil => exact absurd hd hiddata
    | cons a t =>
      cases n with
      | zero => exact absurd rfl hn
      | succ m => simp
  unfold derive_service_name
  by_cases hemp : (stripDash ((deriveRaw c).map sanitizeChar)).isEmpty = true
  · rw [if_pos hemp]
    have htk := htake 8 (by omega)
    refine ⟨?_, ?_, ?_, ?_⟩
    · intro he
      have hd : "autoswarm-".data ++ c.id.data.take 8 = [] :=
        congrArg String.data he
      simp at hd
    · intro d hd
      have hd' : d ∈ "autoswarm-".data ++ c.id.data.take 8 := hd
      have hall : ∀ e ∈ "autoswarm-".data, validChar e = true := by decide
      rcases List.mem_append.mp hd' with hl | hr
      · exact hall d hl
      · have hmem : d ∈ c.id.data := List.take_subset _ _ hr
        rcases hch d hmem with h | h <;> simp [validChar, h]
    · show ("autoswarm-".data ++ c.id.data.take 8).head? ≠ some '-'
      rw [show ("autoswarm-".data ++ c.id.data.take 8).head? = some 'a' from rfl]
      simp
    · show ("autoswarm-".data ++ c.id.data.take 8).getLast? ≠ some '-'
      intro h'
      rw [List.getLast?_append_of_ne_nil _ htk] at h'
      have hmem : ('-' : Char) ∈ c.id.data :=
        List.take_subset _ _ (List.mem_of_getLast?_eq_some h')
      rcases hch '-' hmem with h | h <;> cases h
  · rw [if_neg hemp]
    have hnn : stripDash ((deriveRaw c).map sanitizeChar) ≠ [] := by
      intro he
      rw [he] at hemp
      exact hemp rfl
    refine ⟨?_, ?_, ?_, ?_⟩
    · intro he
      exact hnn (congrArg String.data he)
    · intro d hd
      have hd' : d ∈ stripDash ((deriveRaw c).map sanitizeChar) := hd
      have hmem := mem_stripDash hd'
      obtain ⟨e, -, rfl⟩ := List.mem_map.mp hmem
      exact validChar_sanitizeChar e
    · intro he
      exact stripDash_head?_ne he rfl
    · intro he
      exact stripDash_getLast?_ne he rfl

/-- Concrete container used by the C5 witness. -/
def c5w : ContainerAttrs :=
  ⟨"/My_App", "abc123", ⟨none, none, none, none, none, none, none⟩,
    ⟨none, none⟩, [], [], []⟩

/-- C5 witness: a concrete derivation is non-empty with no edge dashes. -/
theorem derive_service_name_sanitized_witness :
    derive_service_name c5w ≠ ""
    ∧ (derive_service_name c5w).data.head? ≠ some '-'
    ∧ (derive_service_name c5w).data.getLast? ≠ some '-' := by
  have h := derive_service_name_sanitized c5w (by decide) (by decide) (by decide)
  exact ⟨h.1, h.2.2.1, h.2.2.2⟩

end Autoswarm
